import Mathlib

/-!
Verification of the `expressions` library (src/expressions/expressions.py):
an expression data model (Number, Symbol, binary Operators), rendering,
a generic iterative post-order visitor with an identity-keyed cache, and
symbolic differentiation rules dispatched on the node variant.

Python scalars are modelled by `PyVal`; Python object identity is modelled
by an arena (`Heap`) of nodes addressed by `NodeId`, as the traversal
engine's cache is keyed by object identity.
-/

/-- Python scalar values that can appear as `Terminal` payloads or plain
literals: integers, booleans, complex numbers with integer parts, and
strings.  `numbers.Number` covers int, bool (a subclass of int) and
complex; `str` is not numeric. -/
inductive PyVal where
  | intV (n : Int)
  | boolV (b : Bool)
  | complexV (re im : Int)
  | strV (s : String)
deriving DecidableEq, Repr

/-- `isinstance(value, numbers.Number)`: true for int, bool and complex,
false for str. -/
def PyVal.isNumeric : PyVal → Bool
  | .intV _ => true
  | .boolV _ => true
  | .complexV _ _ => true
  | .strV _ => false

/-- `isinstance(value, str)`. -/
def PyVal.isStr : PyVal → Bool
  | .strV _ => true
  | _ => false

/-- Python `str(value)` on the scalars we model: `str(5) = "5"`,
`str(True) = "True"`, `str(2+3j) = "(2+3j)"`, `str("x") = "x"`. -/
def PyVal.pyStr : PyVal → String
  | .intV n => toString n
  | .boolV b => if b then "True" else "False"
  | .complexV re im =>
      "(" ++ toString re ++ (if im < 0 then "" else "+") ++ toString im ++ "j)"
  | .strV s => s

/-- Python exceptions raised by the library: `TypeError` at Number/Symbol
construction (the spec's TypeMismatch), `NotImplementedError` carrying the
name of the variant with no registered differentiation rule (the spec's
Unsupported), `IndexError` from `o[i]` / `expr.operands[i]` on a too-short
tuple, `KeyError` from a failed dict lookup. -/
inductive PyErr where
  | typeMismatch
  | notImplemented (variantName : String)
  | indexError
  | keyError
deriving DecidableEq, Repr

/-- Structural expression trees.  `number`/`symbol` are the validated
terminals; `add`/`sub`/`mul`/`divE`/`powE` the concrete Operator
subclasses; `exprBase`, `terminalBase` and `operatorBase` model direct
instances of the `Expression`, `Terminal` and `Operator` classes
themselves (constructible in Python, and having no registered
differentiation rule). -/
inductive Expr where
  | number (value : PyVal)
  | symbol (name : String)
  | add (l r : Expr)
  | sub (l r : Expr)
  | mul (l r : Expr)
  | divE (l r : Expr)
  | powE (l r : Expr)
  | exprBase (operands : List Expr)
  | terminalBase (value : PyVal)
  | operatorBase (l r : Expr)

/-- `Number.__init__`: raises TypeError unless
`isinstance(value, numbers.Number)`. -/
def mkNumber (value : PyVal) : Except PyErr Expr :=
  if value.isNumeric then .ok (.number value) else .error .typeMismatch

/-- `Symbol.__init__`: raises TypeError unless `isinstance(value, str)`. -/
def mkSymbol (value : PyVal) : Except PyErr Expr :=
  match value with
  | .strV s => .ok (.symbol s)
  | _ => .error .typeMismatch

/-- The right-hand side of an arithmetic dunder: either another
Expression or a plain Python scalar. -/
inductive PyOperand where
  | expr (e : Expr)
  | lit (v : PyVal)

/-- `Expression.__add__`: wrap a non-Expression operand in `Number`
(which may raise TypeError), then build `Add(self, other)`. -/
def pyAdd (self : Expr) : PyOperand → Except PyErr Expr
  | .expr e => .ok (.add self e)
  | .lit v => (mkNumber v).map fun n => .add self n

/-- `Expression.__sub__`. -/
def pySub (self : Expr) : PyOperand → Except PyErr Expr
  | .expr e => .ok (.sub self e)
  | .lit v => (mkNumber v).map fun n => .sub self n

/-- `Expression.__mul__`. -/
def pyMul (self : Expr) : PyOperand → Except PyErr Expr
  | .expr e => .ok (.mul self e)
  | .lit v => (mkNumber v).map fun n => .mul self n

/-- `Expression.__truediv__`. -/
def pyDiv (self : Expr) : PyOperand → Except PyErr Expr
  | .expr e => .ok (.divE self e)
  | .lit v => (mkNumber v).map fun n => .divE self n

/-- `Expression.__pow__`. -/
def pyPow (self : Expr) : PyOperand → Except PyErr Expr
  | .expr e => .ok (.powE self e)
  | .lit v => (mkNumber v).map fun n => .powE self n

/-- `Expression.__radd__`: `Add(Number(other), self)`. -/
def pyRAdd (self : Expr) (other : PyVal) : Except PyErr Expr :=
  (mkNumber other).map fun n => .add n self

/-- `Expression.__rsub__`: `Sub(Number(other), self)`. -/
def pyRSub (self : Expr) (other : PyVal) : Except PyErr Expr :=
  (mkNumber other).map fun n => .sub n self

/-- `Expression.__rmul__`: `Mul(Number(other), self)`. -/
def pyRMul (self : Expr) (other : PyVal) : Except PyErr Expr :=
  (mkNumber other).map fun n => .mul n self

/-- `Expression.__rtruediv__`: `Div(Number(other), self)`. -/
def pyRDiv (self : Expr) (other : PyVal) : Except PyErr Expr :=
  (mkNumber other).map fun n => .divE n self

/-- `Expression.__rpow__`: `Pow(Number(other), self)`. -/
def pyRPow (self : Expr) (other : PyVal) : Except PyErr Expr :=
  (mkNumber other).map fun n => .powE n self

/-- `isinstance(e, Operator)`: the five concrete subclasses, plus direct
`Operator` instances. -/
def Expr.isOperator : Expr → Bool
  | .add _ _ | .sub _ _ | .mul _ _ | .divE _ _ | .powE _ _
  | .operatorBase _ _ => true
  | _ => false

/-- The class attribute `precedence`: Add/Sub 1, Mul/Div 2, Pow 3; the
`Operator` base class declares `precedence = 0` (terminals inherit the
`Expression` default of no such attribute; 0 here is never consulted for
them). -/
def Expr.precedence : Expr → Nat
  | .add _ _ | .sub _ _ => 1
  | .mul _ _ | .divE _ _ => 2
  | .powE _ _ => 3
  | _ => 0

/-- The class attribute `symbol`: the display character of each operator;
`""` on the `Operator` base class. -/
def Expr.opSymbol : Expr → String
  | .add _ _ => "+"
  | .sub _ _ => "-"
  | .mul _ _ => "*"
  | .divE _ _ => "/"
  | .powE _ _ => "^"
  | _ => ""

/-- One operand of `Operator.__str__`: render it, then parenthesize iff
`isinstance(operand, Operator) and operand.precedence < self.precedence`. -/
def strOperand (selfPrec : Nat) (operand : Expr) (rendered : String) : String :=
  if operand.isOperator && operand.precedence < selfPrec then
    "(" ++ rendered ++ ")"
  else rendered

/-- `str(e)`.  `Terminal.__str__` returns `str(self.value)`;
`Operator.__str__` returns `"<left> <symbol> <right>"` with each operand
parenthesized iff it is an Operator of strictly lower precedence;
`Expression.__str__` returns `self.operands`, a tuple, which makes
`str()` raise (modelled as `none`). -/
def strExpr : Expr → Option String
  | .number v => some v.pyStr
  | .symbol s => some s
  | .terminalBase v => some v.pyStr
  | .exprBase _ => none
  | .add l r => do
      let ls ← strExpr l
      let rs ← strExpr r
      some (strOperand 1 l ls ++ " + " ++ strOperand 1 r rs)
  | .sub l r => do
      let ls ← strExpr l
      let rs ← strExpr r
      some (strOperand 1 l ls ++ " - " ++ strOperand 1 r rs)
  | .mul l r => do
      let ls ← strExpr l
      let rs ← strExpr r
      some (strOperand 2 l ls ++ " * " ++ strOperand 2 r rs)
  | .divE l r => do
      let ls ← strExpr l
      let rs ← strExpr r
      some (strOperand 2 l ls ++ " / " ++ strOperand 2 r rs)
  | .powE l r => do
      let ls ← strExpr l
      let rs ← strExpr r
      some (strOperand 3 l ls ++ " ^ " ++ strOperand 3 r rs)
  | .operatorBase l r => do
      let ls ← strExpr l
      let rs ← strExpr r
      some (strOperand 0 l ls ++ "  " ++ strOperand 0 r rs)

/-- `o[i]` on the tuple of already-computed operand results: IndexError
when out of range. -/
def getArg (o : List Expr) (i : Nat) : Except PyErr Expr :=
  match o.get? i with
  | some e => .ok e
  | none => .error .indexError

/-- The `singledispatch` function `differentiate(expr, *o, **kwargs)`:
the per-variant combining function (it is NOT a whole-tree driver; it is
meant to be passed to `postvisitor` as `fn`).  `o` holds the
already-differentiated operand results, `kwargs` the context whose
values are checked against a Symbol's name.  Unregistered variants
(`Expression`, `Terminal`, `Operator`) fall to the base implementation,
which raises NotImplementedError naming the variant. -/
def differentiate (expr : Expr) (o : List Expr)
    (kwargs : List (String × String)) : Except PyErr Expr :=
  match expr with
  | .exprBase _ => .error (.notImplemented "Expression")
  | .terminalBase _ => .error (.notImplemented "Terminal")
  | .operatorBase _ _ => .error (.notImplemented "Operator")
  | .number _ => .ok (.number (.intV 0))
  | .symbol s =>
      if s ∈ kwargs.map Prod.snd then .ok (.number (.intV 1))
      else .ok (.number (.intV 0))
  | .add _ _ => do
      let o0 ← getArg o 0
      let o1 ← getArg o 1
      pyAdd o0 (.expr o1)
  | .sub _ _ => do
      let o0 ← getArg o 0
      let o1 ← getArg o 1
      pySub o0 (.expr o1)
  | .mul x0 x1 => do
      let o0 ← getArg o 0
      let o1 ← getArg o 1
      let t0 ← pyMul o0 (.expr x1)
      let t1 ← pyMul o1 (.expr x0)
      pyAdd t0 (.expr t1)
  | .divE x0 x1 => do
      let o0 ← getArg o 0
      let o1 ← getArg o 1
      let t0 ← pyMul o0 (.expr x1)
      let t1 ← pyMul o1 (.expr x0)
      let numer ← pySub t0 (.expr t1)
      let denom ← pyPow x1 (.lit (.intV 2))
      pyDiv numer (.expr denom)
  | .powE x0 x1 => do
      let o0 ← getArg o 0
      let t0 ← pyMul o0 (.expr x1)
      let e1 ← pySub x1 (.lit (.intV 1))
      let t1 ← pyPow x0 (.expr e1)
      pyMul t0 (.expr t1)

/-- Reference evaluation of a plain expression tree (used only to state
what the spec calls "the tree's true evaluation"): numbers evaluate to
their integer value, symbols through an environment, Add and Mul to the
arithmetic they denote. -/
def evalExpr (env : String → Int) : Expr → Option Int
  | .number (.intV n) => some n
  | .symbol s => some (env s)
  | .add l r => do
      let a ← evalExpr env l
      let b ← evalExpr env r
      some (a + b)
  | .mul l r => do
      let a ← evalExpr env l
      let b ← evalExpr env r
      some (a * b)
  | _ => none

/-! ### Object identity: an arena of nodes

Python's `postvisitor` keys its `visited` dict by object identity, and
the spec distinguishes the *same node instance* from structurally equal
copies.  We model objects as entries of an arena (`Heap`) addressed by
`NodeId`; allocation appends a node, and mutation would be an in-place
change of an existing entry. -/

abbrev NodeId := Nat

/-- The runtime class tag of one heap node. -/
inductive NodeKind where
  | number (value : PyVal)
  | symbol (name : String)
  | add
  | sub
  | mul
  | divE
  | powE
  | exprBase
  | terminalBase (value : PyVal)
  | operatorBase
deriving DecidableEq, Repr

/-- One Python object: its class tag and the tuple `self.operands` of
references to its operand objects. -/
structure Node where
  kind : NodeKind
  operands : List NodeId
deriving DecidableEq, Repr

/-- The arena of allocated objects; a `NodeId` is an index into it. -/
structure Heap where
  nodes : List Node
deriving DecidableEq, Repr

/-- Dereference a node id. -/
def Heap.deref (h : Heap) (i : NodeId) : Option Node :=
  h.nodes.get? i

/-- `e.operands` read through the heap. -/
def Heap.operandsOf (h : Heap) (i : NodeId) : List NodeId :=
  match h.deref i with
  | some n => n.operands
  | none => []

/-- Allocate a fresh object: append it, returning the new heap and the
new object's id. -/
def Heap.alloc (h : Heap) (n : Node) : Heap × NodeId :=
  (⟨h.nodes ++ [n]⟩, h.nodes.length)

/-- `visited[i]` on the association list modelling the `visited` dict
(the most recent binding wins, as a dict store overwrites). -/
def lookupVisited {R : Type} : List (NodeId × R) → NodeId → Option R
  | [], _ => none
  | (k, v) :: rest, i => if k = i then some v else lookupVisited rest i

/-- `(visited[o] for o in e.operands)`: all operand results, `none` if
any lookup would raise KeyError. -/
def childResults {R : Type} (visited : List (NodeId × R)) :
    List NodeId → Option (List R)
  | [] => some []
  | o :: os => do
      let r ← lookupVisited visited o
      let rs ← childResults visited os
      some (r :: rs)

/-- The `while stack:` loop of `postvisitor(expr, fn, **kwargs)`.  Pop
`e`; collect the operands not yet keys of `visited` (one entry per
occurrence, like the source's list comprehension over `e.operands`);
if any, push `e` back followed by those children (so the last-listed
child is on top); otherwise store `fn(e, *(visited[o] for o in
e.operands), **kwargs)` under `e`.  State `st` threads the effects of
`fn` (a call log, or the heap when `fn` allocates); `ops` reads
`e.operands` from the current state; `fuel` bounds the iteration count,
`none` meaning the loop was still running (a cyclic object graph). -/
def postvisitorAux {σ R : Type} (ops : σ → NodeId → List NodeId)
    (fn : σ → NodeId → List R → Except PyErr (σ × R)) :
    Nat → List NodeId → List (NodeId × R) → σ →
    Option (Except PyErr (List (NodeId × R) × σ))
  | 0, _, _, _ => none
  | _ + 1, [], visited, st => some (.ok (visited, st))
  | fuel + 1, e :: stack, visited, st =>
      let unvisited :=
        (ops st e).filter fun o => (lookupVisited visited o).isNone
      if unvisited.isEmpty then
        match childResults visited (ops st e) with
        | none => some (.error .keyError)
        | some rs =>
            match fn st e rs with
            | .error err => some (.error err)
            | .ok (st2, r) =>
                postvisitorAux ops fn fuel stack ((e, r) :: visited) st2
      else
        postvisitorAux ops fn fuel (unvisited.reverse ++ e :: stack) visited st

/-- `postvisitor(expr, fn, **kwargs)`: run the loop from `stack = [expr]`
and an empty `visited`, then `return visited[expr]`. -/
def postvisitor {σ R : Type} (ops : σ → NodeId → List NodeId)
    (fn : σ → NodeId → List R → Except PyErr (σ × R))
    (fuel : Nat) (expr : NodeId) (st : σ) :
    Option (Except PyErr (R × σ)) :=
  match postvisitorAux ops fn fuel [expr] [] st with
  | none => none
  | some (.error err) => some (.error err)
  | some (.ok (visited, st2)) =>
      match lookupVisited visited expr with
      | some r => some (.ok (r, st2))
      | none => some (.error .keyError)

/-- `xs[i]` on a tuple of node references: IndexError when out of
range. -/
def getId (xs : List NodeId) (i : Nat) : Except PyErr NodeId :=
  match xs.get? i with
  | some x => .ok x
  | none => .error .indexError

/-- `differentiate` in heap form: the same dispatch and rules as
`differentiate`, with every node construction performed by `Heap.alloc`
(as each Python constructor call creates a fresh object) and the
original operand subtrees referenced by id, never copied. -/
def differentiateH (h : Heap) (e : NodeId) (o : List NodeId)
    (kwargs : List (String × String)) : Except PyErr (Heap × NodeId) :=
  match h.deref e with
  | none => .error .keyError
  | some node =>
    match node.kind with
    | .exprBase => .error (.notImplemented "Expression")
    | .terminalBase _ => .error (.notImplemented "Terminal")
    | .operatorBase => .error (.notImplemented "Operator")
    | .number _ => .ok (h.alloc ⟨.number (.intV 0), []⟩)
    | .symbol s =>
        if s ∈ kwargs.map Prod.snd then .ok (h.alloc ⟨.number (.intV 1), []⟩)
        else .ok (h.alloc ⟨.number (.intV 0), []⟩)
    | .add =>
        match getId o 0, getId o 1 with
        | .error err, _ => .error err
        | .ok _, .error err => .error err
        | .ok o0, .ok o1 => .ok (h.alloc ⟨.add, [o0, o1]⟩)
    | .sub =>
        match getId o 0, getId o 1 with
        | .error err, _ => .error err
        | .ok _, .error err => .error err
        | .ok o0, .ok o1 => .ok (h.alloc ⟨.sub, [o0, o1]⟩)
    | .mul =>
        match getId o 0, getId o 1,
            getId node.operands 0, getId node.operands 1 with
        | .error err, _, _, _ => .error err
        | _, .error err, _, _ => .error err
        | _, _, .error err, _ => .error err
        | _, _, _, .error err => .error err
        | .ok o0, .ok o1, .ok x0, .ok x1 =>
            let p1 := h.alloc ⟨.mul, [o0, x1]⟩
            let p2 := p1.1.alloc ⟨.mul, [o1, x0]⟩
            .ok (p2.1.alloc ⟨.add, [p1.2, p2.2]⟩)
    | .divE =>
        match getId o 0, getId o 1,
            getId node.operands 0, getId node.operands 1 with
        | .error err, _, _, _ => .error err
        | _, .error err, _, _ => .error err
        | _, _, .error err, _ => .error err
        | _, _, _, .error err => .error err
        | .ok o0, .ok o1, .ok x0, .ok x1 =>
            let p1 := h.alloc ⟨.mul, [o0, x1]⟩
            let p2 := p1.1.alloc ⟨.mul, [o1, x0]⟩
            let p3 := p2.1.alloc ⟨.sub, [p1.2, p2.2]⟩
            let p4 := p3.1.alloc ⟨.number (.intV 2), []⟩
            let p5 := p4.1.alloc ⟨.powE, [x1, p4.2]⟩
            .ok (p5.1.alloc ⟨.divE, [p3.2, p5.2]⟩)
    | .powE =>
        match getId o 0, getId node.operands 0, getId node.operands 1 with
        | .error err, _, _ => .error err
        | _, .error err, _ => .error err
        | _, _, .error err => .error err
        | .ok o0, .ok x0, .ok x1 =>
            let p1 := h.alloc ⟨.mul, [o0, x1]⟩
            let p2 := p1.1.alloc ⟨.number (.intV 1), []⟩
            let p3 := p2.1.alloc ⟨.sub, [x1, p2.2]⟩
            let p4 := p3.1.alloc ⟨.powE, [x0, p3.2]⟩
            .ok (p4.1.alloc ⟨.mul, [p1.2, p4.2]⟩)

/-- Read the expression tree rooted at a heap node back into a
structural `Expr` (bridge between the identity-level and the
tree-level model); `fuel` bounds the depth. -/
def treeAt (h : Heap) : Nat → NodeId → Option Expr
  | 0, _ => none
  | fuel + 1, i => do
      let n ← h.deref i
      match n.kind, n.operands with
      | .number v, [] => some (.number v)
      | .symbol s, [] => some (.symbol s)
      | .terminalBase v, [] => some (.terminalBase v)
      | .add, [a, b] => do
          let ta ← treeAt h fuel a
          let tb ← treeAt h fuel b
          some (.add ta tb)
      | .sub, [a, b] => do
          let ta ← treeAt h fuel a
          let tb ← treeAt h fuel b
          some (.sub ta tb)
      | .mul, [a, b] => do
          let ta ← treeAt h fuel a
          let tb ← treeAt h fuel b
          some (.mul ta tb)
      | .divE, [a, b] => do
          let ta ← treeAt h fuel a
          let tb ← treeAt h fuel b
          some (.divE ta tb)
      | .powE, [a, b] => do
          let ta ← treeAt h fuel a
          let tb ← treeAt h fuel b
          some (.powE ta tb)
      | .operatorBase, [a, b] => do
          let ta ← treeAt h fuel a
          let tb ← treeAt h fuel b
          some (.operatorBase ta tb)
      | _, _ => none

/-- `h2` is `h1` with zero or more nodes allocated after it: every
object of `h1` is still present, unchanged, at its id.  This is the
no-mutation (frame) property for heaps. -/
def heapLE (h1 h2 : Heap) : Prop :=
  ∀ i, i < h1.nodes.length → h2.deref i = h1.deref i

/-- The spec's traversal test function: evaluates the tree numerically
(symbols through `env`) while logging, in the state, the node each
invocation was given — "a function that counts invocations". -/
def countingEval (h : Heap) (env : String → Int)
    (log : List NodeId) (e : NodeId) (rs : List Int) :
    Except PyErr (List NodeId × Int) :=
  match h.deref e with
  | none => .error .keyError
  | some n =>
      match n.kind, rs with
      | .number (.intV v), _ => .ok (log ++ [e], v)
      | .symbol s, _ => .ok (log ++ [e], env s)
      | .add, [a, b] => .ok (log ++ [e], a + b)
      | .sub, [a, b] => .ok (log ++ [e], a - b)
      | .mul, [a, b] => .ok (log ++ [e], a * b)
      | _, _ => .error .keyError

/-- The shared-subexpression object graph of the spec's traversal test:
two distinct `Symbol("x")` objects (ids 0 and 1), `y = Symbol("x") +
Symbol("x")` (id 2), and `z = y * y` (id 3) with the *same* `y`
instance in both operand positions. -/
def sharedHeap : Heap :=
  ⟨[⟨.symbol "x", []⟩, ⟨.symbol "x", []⟩, ⟨.add, [0, 1]⟩, ⟨.mul, [2, 2]⟩]⟩

/-- The structural tree denoted by the shared graph `sharedHeap` at its
root `z` (sharing unfolded). -/
def sharedTree : Expr :=
  .mul (.add (.symbol "x") (.symbol "x")) (.add (.symbol "x") (.symbol "x"))

/-- Run `postvisitor(z, countingEval)` on the shared graph with the
environment mapping every symbol to 3, starting from an empty log. -/
def sharedRun : Option (Except PyErr (Int × List NodeId)) :=
  postvisitor (fun _ i => sharedHeap.operandsOf i)
    (fun log e rs => countingEval sharedHeap (fun _ => 3) log e rs)
    20 3 []

/-- The sequence of nodes `fn` is invoked on in `sharedRun` (ids: 1 and
0 the two Symbol leaves, 2 the shared `y`, 3 the root `z`). -/
def c1Log : List NodeId := [1, 0, 2, 2, 3]

/-- Modelled from the spec's rendering sentence: an operand's own
rendering is wrapped in parentheses if and only if that operand is
itself an Operator with strictly lower precedence than the parent. -/
def specWrapped (parentPrec : Nat) (operand : Expr) (rendered : String) :
    String :=
  if operand.isOperator = true ∧ operand.precedence < parentPrec then
    "(" ++ rendered ++ ")"
  else rendered

/-- The object graph of `Symbol("x") + Symbol("x")` (root id 2). -/
def c2Heap : Heap :=
  ⟨[⟨.symbol "x", []⟩, ⟨.symbol "x", []⟩, ⟨.add, [0, 1]⟩]⟩

/-- `postvisitor(expr, differentiate, with_respect_to="x")` on the
graph of `Symbol("x") + Symbol("x")`. -/
def c2Run : Option (Except PyErr (NodeId × Heap)) :=
  postvisitor Heap.operandsOf
    (fun hh e o => differentiateH hh e o [("with_respect_to", "x")])
    20 2 c2Heap

/-- Render the expression a heap-level differentiation run returned. -/
def renderResult (r : Option (Except PyErr (NodeId × Heap))) :
    Option String :=
  match r with
  | some (.ok (rid, h)) => (treeAt h 10 rid).bind strExpr
  | _ => none

/-- The object graph of `Symbol("x") * Symbol("y")` (root id 2). -/
def mulHeap : Heap :=
  ⟨[⟨.symbol "x", []⟩, ⟨.symbol "y", []⟩, ⟨.mul, [0, 1]⟩]⟩

/-- `postvisitor(expr, differentiate, with_respect_to="x")` on the
graph of `Symbol("x") * Symbol("y")`. -/
def mulRun : Option (Except PyErr (NodeId × Heap)) :=
  postvisitor Heap.operandsOf
    (fun hh e o => differentiateH hh e o [("with_respect_to", "x")])
    20 2 mulHeap

/-- The heap `mulRun` ends with: the three original objects unchanged,
followed by the five objects the product rule allocated.  Nodes 5 and 6
reference the original operand objects 1 and 0 by id — the derivative
shares the undifferentiated subtrees instead of copying them. -/
def c9OutHeap : Heap :=
  ⟨[⟨.symbol "x", []⟩, ⟨.symbol "y", []⟩, ⟨.mul, [0, 1]⟩,
    ⟨.number (.intV 0), []⟩, ⟨.number (.intV 1), []⟩,
    ⟨.mul, [4, 1]⟩, ⟨.mul, [3, 0]⟩, ⟨.add, [5, 6]⟩]⟩

/-! ### General lemmas -/

theorem heapLE_refl (h : Heap) : heapLE h h := fun _ _ => rfl

theorem heapLE_of_append (h1 h2 : Heap) (ns : List Node)
    (he : h2.nodes = h1.nodes ++ ns) : heapLE h1 h2 := by
  intro i hi
  simp only [Heap.deref, he]
  exact List.get?_append hi

theorem heapLE_alloc (h : Heap) (n : Node) : heapLE h (h.alloc n).1 :=
  heapLE_of_append h _ [n] rfl

theorem deref_lt (h : Heap) (i : NodeId) (n : Node)
    (hd : h.deref i = some n) : i < h.nodes.length := by
  by_contra hc
  push_neg at hc
  have hnone : h.nodes.get? i = none := List.get?_eq_none.mpr hc
  rw [Heap.deref, hnone] at hd
  cases hd

theorem heapLE_trans (h1 h2 h3 : Heap) (a : heapLE h1 h2)
    (b : heapLE h2 h3) : heapLE h1 h3 := by
  intro i hi
  have e12 := a i hi
  obtain ⟨n, hn⟩ : ∃ n, h1.deref i = some n := by
    cases hd : h1.deref i with
    | some n => exact ⟨n, rfl⟩
    | none =>
        rw [Heap.deref, List.get?_eq_none] at hd
        omega
  have h2i : h2.deref i = some n := by rw [e12, hn]
  rw [b i (deref_lt h2 i n h2i), e12]

/-- Every successful call of the heap-level differentiation rules only
allocates: the resulting heap extends the argument heap. -/
theorem differentiateH_frame (h : Heap) (e : NodeId) (o : List NodeId)
    (kw : List (String × String)) (h2 : Heap) (r : NodeId)
    (heq : differentiateH h e o kw = .ok (h2, r)) : heapLE h h2 := by
  unfold differentiateH at heq
  split at heq
  · cases heq
  · split at heq
    · cases heq
    · cases heq
    · cases heq
    · cases heq
      exact heapLE_alloc h _
    · split at heq <;> (cases heq; exact heapLE_alloc h _)
    · split at heq
      · cases heq
      · cases heq
      · cases heq
        exact heapLE_alloc h _
    · split at heq
      · cases heq
      · cases heq
      · cases heq
        exact heapLE_alloc h _
    · split at heq
      · cases heq
      · cases heq
      · cases heq
      · cases heq
      · cases heq
        exact heapLE_trans _ _ _
          (heapLE_trans _ _ _ (heapLE_alloc h _) (heapLE_alloc _ _))
          (heapLE_alloc _ _)
    · split at heq
      · cases heq
      · cases heq
      · cases heq
      · cases heq
      · cases heq
        exact heapLE_trans _ _ _
          (heapLE_trans _ _ _
            (heapLE_trans _ _ _
              (heapLE_trans _ _ _
                (heapLE_trans _ _ _ (heapLE_alloc h _) (heapLE_alloc _ _))
                (heapLE_alloc _ _))
              (heapLE_alloc _ _))
            (heapLE_alloc _ _))
          (heapLE_alloc _ _)
    · split at heq
      · cases heq
      · cases heq
      · cases heq
      · cases heq
        exact heapLE_trans _ _ _
          (heapLE_trans _ _ _
            (heapLE_trans _ _ _
              (heapLE_trans _ _ _ (heapLE_alloc h _) (heapLE_alloc _ _))
              (heapLE_alloc _ _))
            (heapLE_alloc _ _))
          (heapLE_alloc _ _)

/-- The traversal loop, run with a combining function that only
allocates, only allocates: whatever it returns, the final heap extends
the initial one, every pre-existing node unchanged. -/
theorem postvisitorAux_frame {R : Type}
    (fn : Heap → NodeId → List R → Except PyErr (Heap × R))
    (hfn : ∀ h e rs h2 r, fn h e rs = .ok (h2, r) → heapLE h h2) :
    ∀ (fuel : Nat) (stack : List NodeId) (visited : List (NodeId × R))
      (h : Heap) (vis2 : List (NodeId × R)) (h2 : Heap),
      postvisitorAux Heap.operandsOf fn fuel stack visited h =
        some (.ok (vis2, h2)) → heapLE h h2 := by
  intro fuel
  induction fuel with
  | zero =>
      intro stack visited h vis2 h2 hrun
      simp [postvisitorAux] at hrun
  | succ n ih =>
      intro stack visited h vis2 h2 hrun
      cases stack with
      | nil =>
          simp only [postvisitorAux, Option.some.injEq] at hrun
          cases hrun
          exact heapLE_refl h
      | cons e rest =>
          simp only [postvisitorAux] at hrun
          split at hrun
          · split at hrun
            · cases hrun
            · split at hrun
              · cases hrun
              · rename_i st2 r heqfn
                exact heapLE_trans _ _ _ (hfn _ _ _ _ _ heqfn)
                  (ih _ _ _ _ _ hrun)
          · exact ih _ _ _ _ _ hrun

/-! ### Claim theorems -/

/-- C1 (counterexample): on the shared graph `z = y * y` built with one
shared `y` instance, `postvisitor` does NOT invoke the combining
function on `y` exactly once: `y` (node 2) is pushed once per operand
occurrence and fn is invoked on it twice, as the call log shows. -/
theorem postvisitor_shared_node_revisited :
    sharedRun = some (.ok (36, c1Log)) ∧
    c1Log.count 2 = 2 ∧ ¬ c1Log.count 2 = 1 := by
  refine ⟨rfl, by decide, by decide⟩

/-- C1 (amended): on `z = y * y` with one shared `y` instance,
`postvisitor` invokes fn on `y` once per stack occurrence — here exactly
twice — each recomputation stores the same cached value, and the
returned total equals the tree's true bottom-up evaluation (36 when
every symbol is 3). -/
theorem postvisitor_shared_node_cached_total :
    sharedRun = some (.ok (36, c1Log)) ∧
    c1Log.count 2 = 2 ∧
    evalExpr (fun _ => 3) sharedTree = some 36 := by
  refine ⟨rfl, by decide, rfl⟩

/-- C2 (counterexample): `differentiate` is not a whole-tree entry
point: calling it directly on the composite tree
`Symbol("x") + Symbol("x")` with `with_respect_to="x"` raises an
IndexError (no operand results are supplied) instead of returning the
derivative. -/
theorem differentiate_direct_call_raises :
    differentiate (.add (.symbol "x") (.symbol "x")) []
      [("with_respect_to", "x")] = .error .indexError := rfl

/-- C2 (amended): `differentiate` is the per-node combining function;
the derivative of a whole tree is obtained by handing it to
`postvisitor`.  Driving the traversal engine with it over
`Symbol("x") + Symbol("x")` with `with_respect_to="x"` returns an
expression that renders as `"1 + 1"`. -/
theorem postvisitor_differentiate_sum_rule :
    renderResult c2Run = some "1 + 1" := rfl

/-- C3 (counterexample): the Symbol rule checks the symbol's name
against ALL context values, not a designated target entry: with context
`with_respect_to="y", label="x"` the target name is "y", yet
`differentiate(Symbol("x"))` returns Number(1) (not Number(0) as the
claim requires), because the unrelated entry's value "x" matches. -/
theorem symbol_rule_matches_any_context_value :
    differentiate (.symbol "x") [] [("with_respect_to", "y"), ("label", "x")] =
      .ok (.number (.intV 1)) ∧
    differentiate (.symbol "x") [] [("with_respect_to", "y"), ("label", "x")] ≠
      .ok (.number (.intV 0)) := by
  constructor
  · rfl
  · intro hc
    rw [show differentiate (.symbol "x") []
          [("with_respect_to", "y"), ("label", "x")] =
          Except.ok (Expr.number (.intV 1)) from rfl] at hc
    simp at hc

/-- C3 (amended): the Symbol differentiation rule returns Number(1) if
and only if the symbol's own name equals the VALUE of at least one
context entry (keys are ignored, every entry participates), and
Number(0) otherwise. -/
theorem symbol_rule_iff_name_in_context_values :
    ∀ (s : String) (o : List Expr) (kw : List (String × String)),
      (differentiate (.symbol s) o kw = .ok (.number (.intV 1)) ↔
        s ∈ kw.map Prod.snd) ∧
      (differentiate (.symbol s) o kw = .ok (.number (.intV 0)) ↔
        ¬ s ∈ kw.map Prod.snd) := by
  intro s o kw
  by_cases hmem : s ∈ kw.map Prod.snd <;> simp [differentiate, hmem]

/-- Bridge between the code's boolean parenthesization test and the
spec's wording of the same condition. -/
theorem strOperand_spec (p : Nat) (o : Expr) (s : String) :
    strOperand p o s = specWrapped p o s := by
  unfold strOperand specWrapped
  by_cases h1 : o.isOperator = true <;> by_cases h2 : o.precedence < p <;>
    simp [h1, h2]

/-- C4: an Operator renders as `"<left> <symbol> <right>"` with each
operand parenthesized iff it is itself an Operator of strictly lower
precedence (per `specWrapped`, the spec's wording); terminals render as
the string form of their wrapped value; the two precedence examples
render without superfluous parentheses, and equal precedence is never
parenthesized. -/
theorem operator_rendering_spec :
    (∀ v, strExpr (.number v) = some v.pyStr) ∧
    (∀ s, strExpr (.symbol s) = some s) ∧
    (∀ l r, strExpr (.add l r) =
      (strExpr l).bind fun ls => (strExpr r).bind fun rs =>
        some (specWrapped 1 l ls ++ " + " ++ specWrapped 1 r rs)) ∧
    (∀ l r, strExpr (.sub l r) =
      (strExpr l).bind fun ls => (strExpr r).bind fun rs =>
        some (specWrapped 1 l ls ++ " - " ++ specWrapped 1 r rs)) ∧
    (∀ l r, strExpr (.mul l r) =
      (strExpr l).bind fun ls => (strExpr r).bind fun rs =>
        some (specWrapped 2 l ls ++ " * " ++ specWrapped 2 r rs)) ∧
    (∀ l r, strExpr (.divE l r) =
      (strExpr l).bind fun ls => (strExpr r).bind fun rs =>
        some (specWrapped 2 l ls ++ " / " ++ specWrapped 2 r rs)) ∧
    (∀ l r, strExpr (.powE l r) =
      (strExpr l).bind fun ls => (strExpr r).bind fun rs =>
        some (specWrapped 3 l ls ++ " ^ " ++ specWrapped 3 r rs)) ∧
    strExpr (.mul (.add (.symbol "x") (.symbol "y")) (.symbol "z")) =
      some "(x + y) * z" ∧
    strExpr (.add (.mul (.symbol "x") (.symbol "y")) (.symbol "z")) =
      some "x * y + z" ∧
    strExpr (.sub (.sub (.symbol "x") (.symbol "y")) (.symbol "z")) =
      some "x - y - z" := by
  refine ⟨fun v => rfl, fun s => rfl, ?_, ?_, ?_, ?_, ?_, rfl, rfl, rfl⟩ <;>
    (intro l r;
     cases hl : strExpr l <;> cases hr : strExpr r <;>
       simp [strExpr, hl, hr, strOperand_spec])

/-- C5: `Number(value)` fails with the type-mismatch error iff `value`
is not numeric, `Symbol(name)` fails with it iff `name` is not textual
(on failure no Expression is produced: the result is the bare error);
in particular `Number("abc")` and `Symbol(5)` both fail this way. -/
theorem construction_type_validation :
    (∀ v, mkNumber v = .error .typeMismatch ↔ v.isNumeric = false) ∧
    (∀ v, mkSymbol v = .error .typeMismatch ↔ v.isStr = false) ∧
    mkNumber (.strV "abc") = .error .typeMismatch ∧
    mkSymbol (.intV 5) = .error .typeMismatch := by
  refine ⟨fun v => ?_, fun v => ?_, rfl, rfl⟩
  · cases v <;> simp [mkNumber, PyVal.isNumeric]
  · cases v <;> simp [mkSymbol, PyVal.isStr]

/-- C6: for every Expression `e` and numeric literal `c`, each of the
five operations builds the corresponding Operator node with the literal
wrapped in Number and the operand order preserved in both orderings
(`e OP c` and `c OP e`); e.g. `5 - e` yields `Sub(Number(5), e)`. -/
theorem arith_sugar_wraps_literals :
    ∀ (e : Expr) (v : PyVal), v.isNumeric = true →
      (pyAdd e (.lit v) = .ok (.add e (.number v)) ∧
       pyRAdd e v = .ok (.add (.number v) e)) ∧
      (pySub e (.lit v) = .ok (.sub e (.number v)) ∧
       pyRSub e v = .ok (.sub (.number v) e)) ∧
      (pyMul e (.lit v) = .ok (.mul e (.number v)) ∧
       pyRMul e v = .ok (.mul (.number v) e)) ∧
      (pyDiv e (.lit v) = .ok (.divE e (.number v)) ∧
       pyRDiv e v = .ok (.divE (.number v) e)) ∧
      (pyPow e (.lit v) = .ok (.powE e (.number v)) ∧
       pyRPow e v = .ok (.powE (.number v) e)) := by
  intro e v hv
  simp [pyAdd, pyRAdd, pySub, pyRSub, pyMul, pyRMul, pyDiv, pyRDiv,
    pyPow, pyRPow, mkNumber, hv, Except.map]

/-- C6 witness: instantiated at `e = Symbol("x")`, `c = 5`:
`5 - e` is `Sub(Number(5), e)` and `e - 5` is `Sub(e, Number(5))`. -/
theorem arith_sugar_wraps_literals_witness :
    PyVal.isNumeric (.intV 5) = true ∧
    pySub (.symbol "x") (.lit (.intV 5)) =
      .ok (.sub (.symbol "x") (.number (.intV 5))) ∧
    pyRSub (.symbol "x") (.intV 5) =
      .ok (.sub (.number (.intV 5)) (.symbol "x")) :=
  ⟨rfl, (arith_sugar_wraps_literals (.symbol "x") (.intV 5) rfl).2.1.1,
    (arith_sugar_wraps_literals (.symbol "x") (.intV 5) rfl).2.1.2⟩

/-- C7: given differentiated operand results o0, o1 and original
operands x0, x1, the Mul rule returns o0·x1 + o1·x0, the Div rule
(o0·x1 − o1·x0) / x1², and the Pow rule o0·x1·x0^(x1−1) (exponent
treated as constant), exactly as expression trees. -/
theorem product_quotient_power_rules :
    ∀ (x0 x1 o0 o1 : Expr) (rest : List Expr)
      (kw : List (String × String)),
      differentiate (.mul x0 x1) (o0 :: o1 :: rest) kw =
        .ok (.add (.mul o0 x1) (.mul o1 x0)) ∧
      differentiate (.divE x0 x1) (o0 :: o1 :: rest) kw =
        .ok (.divE (.sub (.mul o0 x1) (.mul o1 x0))
          (.powE x1 (.number (.intV 2)))) ∧
      differentiate (.powE x0 x1) (o0 :: o1 :: rest) kw =
        .ok (.mul (.mul o0 x1) (.powE x0 (.sub x1 (.number (.intV 1))))) :=
  fun _ _ _ _ _ _ => ⟨rfl, rfl, rfl⟩

/-- C8: invoking the differentiation dispatch on a variant with no
registered rule — a bare Expression, a bare Terminal, or a bare
Operator — fails with the unsupported-variant error naming that
variant, whatever operands, operand results and context are given. -/
theorem unregistered_variant_raises :
    ∀ (ops : List Expr) (v : PyVal) (l r : Expr) (o : List Expr)
      (kw : List (String × String)),
      differentiate (.exprBase ops) o kw =
        .error (.notImplemented "Expression") ∧
      differentiate (.terminalBase v) o kw =
        .error (.notImplemented "Terminal") ∧
      differentiate (.operatorBase l r) o kw =
        .error (.notImplemented "Operator") :=
  fun _ _ _ _ _ _ => ⟨rfl, rfl, rfl⟩

/-- C9: differentiation never mutates its input: any successful
postvisitor-driven differentiation run only extends the heap, leaving
every pre-existing node (operands and values) unchanged; and the result
shares the original subtrees: in the product-rule run on
`Symbol("x") * Symbol("y")`, the derivative's nodes 5 and 6 reference
the original operand objects (ids 1 and 0) rather than copies. -/
theorem differentiate_no_mutation :
    (∀ (h : Heap) (root : NodeId) (kw : List (String × String))
       (fuel : Nat) (rid : NodeId) (h2 : Heap),
       postvisitor Heap.operandsOf
         (fun hh e o => differentiateH hh e o kw) fuel root h =
         some (.ok (rid, h2)) → heapLE h h2) ∧
    (mulRun = some (.ok (7, c9OutHeap)) ∧
     c9OutHeap.operandsOf 7 = [5, 6] ∧
     c9OutHeap.operandsOf 5 = [4, 1] ∧
     c9OutHeap.operandsOf 6 = [3, 0] ∧
     c9OutHeap.deref 1 = mulHeap.deref 1 ∧
     c9OutHeap.deref 0 = mulHeap.deref 0) := by
  constructor
  · intro h root kw fuel rid h2 hrun
    unfold postvisitor at hrun
    split at hrun
    · cases hrun
    · cases hrun
    · rename_i visited st2 hloop
      split at hrun
      · cases hrun
        exact postvisitorAux_frame _
          (fun hh e rs hh2 r heq => differentiateH_frame hh e rs kw hh2 r heq)
          fuel [root] [] h visited h2 hloop
      · cases hrun
  · exact ⟨rfl, rfl, rfl, rfl, rfl, rfl⟩

/-- C9 witness: the frame theorem applied to the concrete product-rule
run: the root object of `Symbol("x") * Symbol("y")` is untouched by
differentiation. -/
theorem differentiate_no_mutation_witness :
    c9OutHeap.deref 2 = mulHeap.deref 2 :=
  differentiate_no_mutation.1 mulHeap 2 [("with_respect_to", "x")] 20 7
    c9OutHeap rfl 2 (by decide)

/-- C10: the Number construction check accepts every value of the
numeric abstract type — booleans and complex values included, so
`Number(True)` and `Number(2+3j)` construct successfully — and rejects
strings. -/
theorem number_accepts_all_numerics :
    mkNumber (.boolV true) = .ok (.number (.boolV true)) ∧
    mkNumber (.complexV 2 3) = .ok (.number (.complexV 2 3)) ∧
    (∀ n : Int, mkNumber (.intV n) = .ok (.number (.intV n))) ∧
    (∀ b : Bool, mkNumber (.boolV b) = .ok (.number (.boolV b))) ∧
    (∀ re im : Int, mkNumber (.complexV re im) =
      .ok (.number (.complexV re im))) ∧
    (∀ s : String, mkNumber (.strV s) = .error .typeMismatch) :=
  ⟨rfl, rfl, fun _ => rfl, fun _ => rfl, fun _ _ => rfl, fun _ => rfl⟩
